import Mathlib

deriving instance DecidableEq for Except

/-!
Verification of the SQLite on-disk format decoder in `src/core/sqlite3_ondisk.rs`.

The Rust source is shallowly embedded here as follows.

* Byte buffers (`&[u8]`, `Vec<u8>`) are `List Nat`, each element a byte value.
* Machine integers (`u8`, `u16`, `u32`, `u64`, `usize`) are `Nat`; `i64` results
  are `Int`.  Where overflow can occur (the `u64` accumulator in `read_varint`)
  an explicit `% 2 ^ 64` is written.
* Fallible Rust functions returning `anyhow::Result<T>` become
  `Except DecodeErr T`.  The Rust code has two distinct failure modes that we
  keep apart: `Err(...)` values it constructs explicitly (invalid page type,
  invalid serial type, invalid UTF-8), and panics (out-of-bounds indexing or
  slicing, `assert!` failures, `todo!()`, shift-amount overflow).  Panics are
  modelled as the dedicated `DecodeErr.panic*` constructors, so that a proof
  can distinguish "returned an error" from "panicked".
* The I/O collaborator (`io.get`) and the buffer pool are out of scope per the
  spec; `read_btree_page` is therefore embedded as a pure function of the page
  buffer contents that `io.get` filled in, plus the 1-based page index.
* The `println!` debug side effect in `read_btree_page` has no observable
  return value and is dropped; the `read_record(...)?` call feeding it is kept,
  since its failure propagates out of `read_btree_page`.
-/

namespace Sqlite3Ondisk

/-- Failure modes of the decoder.  The first three are the `anyhow` errors the
Rust code constructs and returns; the `panic*` constructors model Rust panics
(which abort rather than return `Err`). -/
inductive DecodeErr where
  /-- `Err(anyhow!("Invalid page type: {}"))` carrying the offending byte. -/
  | invalidPageType (b : Nat)
  /-- `Err(anyhow!("Invalid serial type: {}"))` carrying the offending code. -/
  | invalidSerialType (n : Nat)
  /-- `String::from_utf8` failure propagated by `?` in `read_value`. -/
  | invalidUtf8
  /-- Panic from an out-of-bounds index `buf[i]` or slice `buf[a..b]`. -/
  | panicIndex
  /-- Panic from a failed `assert!`. -/
  | panicAssert
  /-- Panic from `todo!()` (unimplemented cell variants). -/
  | panicTodo
  /-- Panic from a left shift whose shift amount reaches the bit width. -/
  | panicShift
  deriving DecidableEq, Repr

/-- `true` exactly on the constructors that model a Rust panic, `false` on the
error values the code returns with `Err(...)`. -/
def DecodeErr.isPanic : DecodeErr → Bool
  | .panicIndex | .panicAssert | .panicTodo | .panicShift => true
  | .invalidPageType _ | .invalidSerialType _ | .invalidUtf8 => false

/-- The size of the database header in bytes (`DATABASE_HEADER_SIZE`). -/
def DATABASE_HEADER_SIZE : Nat := 100

/-- `buf[i]` on a byte slice: the byte, or an index panic when out of bounds. -/
def byteAt (buf : List Nat) (i : Nat) : Except DecodeErr Nat :=
  match buf.get? i with
  | some b => .ok b
  | none => .error .panicIndex

/-- `u16::from_be_bytes([buf[i], buf[i+1]])`, with the indexing panics. -/
def u16At (buf : List Nat) (i : Nat) : Except DecodeErr Nat :=
  match byteAt buf i with
  | .error e => .error e
  | .ok b0 =>
    match byteAt buf (i + 1) with
    | .error e => .error e
    | .ok b1 => .ok (b0 * 2 ^ 8 + b1)

/-- `u32::from_be_bytes([buf[i], .., buf[i+3]])`, with the indexing panics. -/
def u32At (buf : List Nat) (i : Nat) : Except DecodeErr Nat :=
  match byteAt buf i with
  | .error e => .error e
  | .ok b0 =>
    match byteAt buf (i + 1) with
    | .error e => .error e
    | .ok b1 =>
      match byteAt buf (i + 2) with
      | .error e => .error e
      | .ok b2 =>
        match byteAt buf (i + 3) with
        | .error e => .error e
        | .ok b3 => .ok (b0 * 2 ^ 24 + b1 * 2 ^ 16 + b2 * 2 ^ 8 + b3)

/-- The suffix slice `&buf[pos..]`: panics when `pos` exceeds the length. -/
def sliceFrom (buf : List Nat) (pos : Nat) : Except DecodeErr (List Nat) :=
  if pos ≤ buf.length then .ok (buf.drop pos) else .error .panicIndex

/-- The slice `&buf[a..b]`: panics when `a > b` or `b` exceeds the length. -/
def sliceRange (buf : List Nat) (a b : Nat) : Except DecodeErr (List Nat) :=
  if a ≤ b ∧ b ≤ buf.length then .ok ((buf.take b).drop a) else .error .panicIndex

/-!  ## Varint codec (`read_varint`)  -/

/-- The loop of `read_varint`.  `value` is the `u64` accumulator, `shift` the
current shift amount, `i` the index of the byte about to be read.  Reading past
the end of the buffer is the indexing panic `buf[i]`; a shift amount reaching
64 is the shift-overflow panic of `(x as u64) << shift`.  The `% 2 ^ 64` keeps
the shifted contribution inside the `u64` range exactly as the Rust `<<` does. -/
def readVarintAux : List Nat → Nat → Nat → Nat → Except DecodeErr (Nat × Nat)
  | [], _, _, _ => .error .panicIndex
  | b :: rest, value, shift, i =>
    if 64 ≤ shift then .error .panicShift
    else
      let value := value ||| ((b &&& 0x7f) <<< shift % 2 ^ 64)
      if b &&& 0x80 = 0 then .ok (value, i + 1)
      else readVarintAux rest value (shift + 7) (i + 1)

/-- `read_varint(buf)`: decodes a variable-length integer, returning the value
and the number of bytes consumed. -/
def read_varint (buf : List Nat) : Except DecodeErr (Nat × Nat) :=
  readVarintAux buf 0 0 0

/-!  ## Serial types (`impl TryFrom<u64> for SerialType`)  -/

/-- `SerialType`: how one record column's value is physically stored. -/
inductive SerialType where
  | Null
  | UInt8
  | BEInt16
  | BEInt24
  | BEInt32
  | BEInt48
  | BEInt64
  | BEFloat64
  | ConstInt0
  | ConstInt1
  | Blob (n : Nat)
  | String (n : Nat)
  deriving DecidableEq, Repr

/-- `SerialType::try_from(value: u64)`: the match of the Rust `TryFrom`
implementation, guard conditions `value > 12 && value % 2 == 0` and
`value > 13 && value % 2 == 1` included verbatim. -/
def serialTypeOfCode (value : Nat) : Except DecodeErr SerialType :=
  if value = 0 then .ok .Null
  else if value = 1 then .ok .UInt8
  else if value = 2 then .ok .BEInt16
  else if value = 3 then .ok .BEInt24
  else if value = 4 then .ok .BEInt32
  else if value = 5 then .ok .BEInt48
  else if value = 6 then .ok .BEInt64
  else if value = 7 then .ok .BEFloat64
  else if value = 8 then .ok .ConstInt0
  else if value = 9 then .ok .ConstInt1
  else if 12 < value ∧ value % 2 = 0 then .ok (.Blob ((value - 12) / 2))
  else if 13 < value ∧ value % 2 = 1 then .ok (.String ((value - 13) / 2))
  else .error (.invalidSerialType value)

/-!  ## Values (`read_value`)  -/

/-- `Value`: a decoded column value.  `Float` carries the raw IEEE-754 bit
pattern of the `f64` (the 8 big-endian bytes as one number); `Text` carries the
validated UTF-8 bytes that the Rust `String` owns. -/
inductive Value where
  | Null
  | Integer (i : Int)
  | Float (bits : Nat)
  | Text (bytes : List Nat)
  | Blob (bytes : List Nat)
  deriving DecidableEq, Repr

/-- Two's complement reading of a `w`-bit big-endian integer whose unsigned
value is `u`; this is what `iN::from_be_bytes` yields. -/
def toSigned (w : Nat) (u : Nat) : Int :=
  if u < 2 ^ (w - 1) then (u : Int) else (u : Int) - 2 ^ w

/-- `true` when `b` is a UTF-8 continuation byte (`0x80..=0xBF`). -/
def contByte (b : Nat) : Bool := 0x80 ≤ b && b ≤ 0xBF

/-- The UTF-8 validity check performed by Rust's `String::from_utf8` (rejects
overlong forms, surrogates, and code points above U+10FFFF). -/
def utf8Valid : List Nat → Bool
  | [] => true
  | b :: rest =>
    if b ≤ 0x7F then utf8Valid rest
    else if 0xC2 ≤ b && b ≤ 0xDF then
      match rest with
      | b1 :: r => contByte b1 && utf8Valid r
      | [] => false
    else if b = 0xE0 then
      match rest with
      | b1 :: b2 :: r => (0xA0 ≤ b1 && b1 ≤ 0xBF) && contByte b2 && utf8Valid r
      | _ => false
    else if (0xE1 ≤ b && b ≤ 0xEC) || b = 0xEE || b = 0xEF then
      match rest with
      | b1 :: b2 :: r => contByte b1 && contByte b2 && utf8Valid r
      | _ => false
    else if b = 0xED then
      match rest with
      | b1 :: b2 :: r => (0x80 ≤ b1 && b1 ≤ 0x9F) && contByte b2 && utf8Valid r
      | _ => false
    else if b = 0xF0 then
      match rest with
      | b1 :: b2 :: b3 :: r =>
        (0x90 ≤ b1 && b1 ≤ 0xBF) && contByte b2 && contByte b3 && utf8Valid r
      | _ => false
    else if 0xF1 ≤ b && b ≤ 0xF3 then
      match rest with
      | b1 :: b2 :: b3 :: r => contByte b1 && contByte b2 && contByte b3 && utf8Valid r
      | _ => false
    else if b = 0xF4 then
      match rest with
      | b1 :: b2 :: b3 :: r =>
        (0x80 ≤ b1 && b1 ≤ 0x8F) && contByte b2 && contByte b3 && utf8Valid r
      | _ => false
    else false

/-- `read_value(buf, serial_type)`: extracts one value and the byte count it
consumed.  Note the zero high bytes written literally in the `BEInt24` and
`BEInt48` byte arrays, and the zero-extending `buf[0] as i64` cast of `UInt8`,
exactly as in the source. -/
def read_value (buf : List Nat) (serial_type : SerialType) :
    Except DecodeErr (Value × Nat) :=
  match serial_type with
  | .Null => .ok (.Null, 0)
  | .UInt8 =>
    match byteAt buf 0 with
    | .error e => .error e
    | .ok b0 => .ok (.Integer (b0 : Int), 1)
  | .BEInt16 =>
    match byteAt buf 0 with
    | .error e => .error e
    | .ok b0 =>
      match byteAt buf 1 with
      | .error e => .error e
      | .ok b1 => .ok (.Integer (toSigned 16 (b0 * 2 ^ 8 + b1)), 2)
  | .BEInt24 =>
    match byteAt buf 0 with
    | .error e => .error e
    | .ok b0 =>
      match byteAt buf 1 with
      | .error e => .error e
      | .ok b1 =>
        match byteAt buf 2 with
        | .error e => .error e
        | .ok b2 =>
          .ok (.Integer (toSigned 32 (0 * 2 ^ 24 + b0 * 2 ^ 16 + b1 * 2 ^ 8 + b2)), 3)
  | .BEInt32 =>
    match byteAt buf 0 with
    | .error e => .error e
    | .ok b0 =>
      match byteAt buf 1 with
      | .error e => .error e
      | .ok b1 =>
        match byteAt buf 2 with
        | .error e => .error e
        | .ok b2 =>
          match byteAt buf 3 with
          | .error e => .error e
          | .ok b3 =>
            .ok (.Integer (toSigned 32 (b0 * 2 ^ 24 + b1 * 2 ^ 16 + b2 * 2 ^ 8 + b3)), 4)
  | .BEInt48 =>
    match byteAt buf 0 with
    | .error e => .error e
    | .ok b0 =>
      match byteAt buf 1 with
      | .error e => .error e
      | .ok b1 =>
        match byteAt buf 2 with
        | .error e => .error e
        | .ok b2 =>
          match byteAt buf 3 with
          | .error e => .error e
          | .ok b3 =>
            match byteAt buf 4 with
            | .error e => .error e
            | .ok b4 =>
              match byteAt buf 5 with
              | .error e => .error e
              | .ok b5 =>
                .ok (.Integer (toSigned 64
                  (0 * 2 ^ 56 + 0 * 2 ^ 48 + b0 * 2 ^ 40 + b1 * 2 ^ 32 +
                    b2 * 2 ^ 24 + b3 * 2 ^ 16 + b4 * 2 ^ 8 + b5)), 6)
  | .BEInt64 =>
    match byteAt buf 0 with
    | .error e => .error e
    | .ok b0 =>
      match byteAt buf 1 with
      | .error e => .error e
      | .ok b1 =>
        match byteAt buf 2 with
        | .error e => .error e
        | .ok b2 =>
          match byteAt buf 3 with
          | .error e => .error e
          | .ok b3 =>
            match byteAt buf 4 with
            | .error e => .error e
            | .ok b4 =>
              match byteAt buf 5 with
              | .error e => .error e
              | .ok b5 =>
                match byteAt buf 6 with
                | .error e => .error e
                | .ok b6 =>
                  match byteAt buf 7 with
                  | .error e => .error e
                  | .ok b7 =>
                    .ok (.Integer (toSigned 64
                      (b0 * 2 ^ 56 + b1 * 2 ^ 48 + b2 * 2 ^ 40 + b3 * 2 ^ 32 +
                        b4 * 2 ^ 24 + b5 * 2 ^ 16 + b6 * 2 ^ 8 + b7)), 8)
  | .BEFloat64 =>
    match byteAt buf 0 with
    | .error e => .error e
    | .ok b0 =>
      match byteAt buf 1 with
      | .error e => .error e
      | .ok b1 =>
        match byteAt buf 2 with
        | .error e => .error e
        | .ok b2 =>
          match byteAt buf 3 with
          | .error e => .error e
          | .ok b3 =>
            match byteAt buf 4 with
            | .error e => .error e
            | .ok b4 =>
              match byteAt buf 5 with
              | .error e => .error e
              | .ok b5 =>
                match byteAt buf 6 with
                | .error e => .error e
                | .ok b6 =>
                  match byteAt buf 7 with
                  | .error e => .error e
                  | .ok b7 =>
                    .ok (.Float
                      (b0 * 2 ^ 56 + b1 * 2 ^ 48 + b2 * 2 ^ 40 + b3 * 2 ^ 32 +
                        b4 * 2 ^ 24 + b5 * 2 ^ 16 + b6 * 2 ^ 8 + b7), 8)
  | .ConstInt0 => .ok (.Integer 0, 0)
  | .ConstInt1 => .ok (.Integer 1, 0)
  | .Blob n =>
    match sliceRange buf 0 n with
    | .error e => .error e
    | .ok bytes => .ok (.Blob bytes, n)
  | .String n =>
    match sliceRange buf 0 n with
    | .error e => .error e
    | .ok bytes =>
      if utf8Valid bytes then .ok (.Text bytes, n) else .error .invalidUtf8

/-!  ## Records (`read_record`)  -/

/-- `Record`: the ordered tuple of values decoded from one cell payload. -/
structure Record where
  values : List Value
  deriving DecidableEq, Repr

/-- `read_varint` consumes at least one byte when it succeeds. -/
theorem readVarintAux_one_le :
    ∀ (buf : List Nat) (value shift i : Nat) {v n : Nat},
      readVarintAux buf value shift i = .ok (v, n) → i + 1 ≤ n := by
  intro buf
  induction buf with
  | nil => intro value shift i v n h; simp [readVarintAux] at h
  | cons b rest ih =>
    intro value shift i v n h
    simp only [readVarintAux] at h
    split at h
    · exact absurd h (by simp)
    · split at h
      · simp only [Except.ok.injEq, Prod.mk.injEq] at h
        omega
      · have := ih _ _ _ h
        omega

/-- `read_varint` consumes at least one byte when it succeeds. -/
theorem read_varint_one_le {buf : List Nat} {v n : Nat}
    (h : read_varint buf = .ok (v, n)) : 1 ≤ n :=
  readVarintAux_one_le buf 0 0 0 h

/-- The `while header_size > 0` loop of `read_record`: reads serial-type
varints from `payload` starting at `pos` until the remaining declared header
length `header_size` is exhausted.  Returns the serial types in order together
with the final cursor position.  The two `assert!`s of the loop body become
`panicAssert` failures, in source order: first `pos + nr < payload.len()`,
then `header_size >= nr`. -/
def readSerialTypesLoop (payload : List Nat) (pos header_size : Nat) :
    Except DecodeErr (List SerialType × Nat) :=
  if header_size = 0 then .ok ([], pos)
  else
    match sliceFrom payload pos with
    | .error e => .error e
    | .ok s =>
      match hv : read_varint s with
      | .error e => .error e
      | .ok (code, nr) =>
        match serialTypeOfCode code with
        | .error e => .error e
        | .ok serial_type =>
          if pos + nr < payload.length then
            if nr ≤ header_size then
              match readSerialTypesLoop payload (pos + nr) (header_size - nr) with
              | .error e => .error e
              | .ok (rest, pos') => .ok (serial_type :: rest, pos')
            else .error .panicAssert
          else .error .panicAssert
termination_by header_size
decreasing_by
  have h1 : 1 ≤ nr := read_varint_one_le hv
  omega

/-- The value-decoding loop of `read_record`: one `read_value` per serial type,
advancing the cursor by each value's consumed byte count. -/
def readValuesLoop (payload : List Nat) :
    Nat → List SerialType → Except DecodeErr (List Value × Nat)
  | pos, [] => .ok ([], pos)
  | pos, serial_type :: rest =>
    match sliceFrom payload pos with
    | .error e => .error e
    | .ok s =>
      match read_value s serial_type with
      | .error e => .error e
      | .ok (v, n) =>
        match readValuesLoop payload (pos + n) rest with
        | .error e => .error e
        | .ok (vs, pos') => .ok (v :: vs, pos')

/-- `read_record(payload)`: header-length varint, serial-type list, values.
The `assert!((header_size as usize) >= nr)` becomes the `panicAssert` branch. -/
def read_record (payload : List Nat) : Except DecodeErr Record :=
  match read_varint payload with
  | .error e => .error e
  | .ok (header_size, nr) =>
    if header_size < nr then .error .panicAssert
    else
      match readSerialTypesLoop payload nr (header_size - nr) with
      | .error e => .error e
      | .ok (serial_types, pos) =>
        match readValuesLoop payload pos serial_types with
        | .error e => .error e
        | .ok (values, _) => .ok ⟨values⟩

/-!  ## B-tree pages and cells  -/

/-- `PageType`: the four valid page-type tag bytes. -/
inductive PageType where
  | IndexInterior
  | TableInterior
  | IndexLeaf
  | TableLeaf
  deriving DecidableEq, Repr

/-- `impl TryFrom<u8> for PageType`: 2, 5, 10, 13 are the valid tags; any
other byte is `Err(anyhow!("Invalid page type: {}"))`. -/
def pageTypeOfByte (value : Nat) : Except DecodeErr PageType :=
  if value = 2 then .ok .IndexInterior
  else if value = 5 then .ok .TableInterior
  else if value = 10 then .ok .IndexLeaf
  else if value = 13 then .ok .TableLeaf
  else .error (.invalidPageType value)

/-- `TableLeafCell { _rowid, _payload }`. -/
structure TableLeafCell where
  rowid : Nat
  payload : List Nat
  deriving DecidableEq, Repr

/-- `BTreeCell`: only the table-leaf variant exists in the source. -/
inductive BTreeCell where
  | TableLeafCell (c : TableLeafCell)
  deriving DecidableEq, Repr

/-- `BTreePageHeader` (the underscore prefixes of the unused Rust fields are
dropped). -/
structure BTreePageHeader where
  page_type : PageType
  first_freeblock_offset : Nat
  num_cells : Nat
  cell_content_area : Nat
  num_frag_free_bytes : Nat
  right_most_pointer : Option Nat
  deriving DecidableEq, Repr

/-- `BTreePage`: header plus decoded cells in cell-pointer-array order. -/
structure BTreePage where
  header : BTreePageHeader
  cells : List BTreeCell
  deriving DecidableEq, Repr

/-- `read_btree_cell(page, page_type, pos)`.  The three unimplemented variants
are `todo!()` panics; for `TableLeaf` the payload slice
`&page[pos..pos + payload_size]` panics when it runs past the page buffer
(the `FIXME` in the source). -/
def read_btree_cell (page : List Nat) (page_type : PageType) (pos : Nat) :
    Except DecodeErr BTreeCell :=
  match page_type with
  | .IndexInterior => .error .panicTodo
  | .TableInterior => .error .panicTodo
  | .IndexLeaf => .error .panicTodo
  | .TableLeaf =>
    match sliceFrom page pos with
    | .error e => .error e
    | .ok s =>
      match read_varint s with
      | .error e => .error e
      | .ok (payload_size, nr) =>
        match sliceFrom page (pos + nr) with
        | .error e => .error e
        | .ok s' =>
          match read_varint s' with
          | .error e => .error e
          | .ok (rowid, nr') =>
            match sliceRange page (pos + nr + nr') (pos + nr + nr' + payload_size) with
            | .error e => .error e
            | .ok payload => .ok (.TableLeafCell ⟨rowid, payload⟩)

/-- The cursor position at which the b-tree page header starts: page 1 carries
the 100-byte database header first. -/
def headerOffset (page_idx : Nat) : Nat :=
  if page_idx = 1 then DATABASE_HEADER_SIZE else 0

/-- The `for _ in 0..num_cells` loop of `read_btree_page`: reads a two-byte
big-endian cell pointer at `pos`, decodes the cell there, decodes the cell's
record (the source does so to print it, propagating failure with `?`), and
collects the cells in order.  `n` counts the remaining iterations. -/
def readCellsLoop (page : List Nat) (page_type : PageType) :
    Nat → Nat → Except DecodeErr (List BTreeCell)
  | 0, _ => .ok []
  | n + 1, pos =>
    match u16At page pos with
    | .error e => .error e
    | .ok cell_pointer =>
      match read_btree_cell page page_type cell_pointer with
      | .error e => .error e
      | .ok cell =>
        match cell with
        | .TableLeafCell c =>
          match read_record c.payload with
          | .error e => .error e
          | .ok _ =>
            match readCellsLoop page page_type n (pos + 2) with
            | .error e => .error e
            | .ok rest => .ok (.TableLeafCell c :: rest)

/-- `read_btree_page`, embedded as a pure function of the page buffer that the
I/O collaborator filled (`page`) and the 1-based page index.  Field order and
the interior-only right-most pointer follow the source; the `println!` of each
record is dropped but its `read_record(..)?` failure propagation is kept
inside `readCellsLoop`. -/
def read_btree_page (page : List Nat) (page_idx : Nat) :
    Except DecodeErr BTreePage :=
  match byteAt page (headerOffset page_idx) with
  | .error e => .error e
  | .ok b =>
    match pageTypeOfByte b with
    | .error e => .error e
    | .ok page_type =>
      match u16At page (headerOffset page_idx + 1) with
      | .error e => .error e
      | .ok first_freeblock_offset =>
        match u16At page (headerOffset page_idx + 3) with
        | .error e => .error e
        | .ok num_cells =>
          match u16At page (headerOffset page_idx + 5) with
          | .error e => .error e
          | .ok cell_content_area =>
            match byteAt page (headerOffset page_idx + 7) with
            | .error e => .error e
            | .ok num_frag_free_bytes =>
              if page_type = .IndexInterior ∨ page_type = .TableInterior then
                match u32At page (headerOffset page_idx + 8) with
                | .error e => .error e
                | .ok rmp =>
                  match readCellsLoop page page_type num_cells
                      (headerOffset page_idx + 12) with
                  | .error e => .error e
                  | .ok cells =>
                    .ok ⟨⟨page_type, first_freeblock_offset, num_cells,
                      cell_content_area, num_frag_free_bytes, some rmp⟩, cells⟩
              else
                match readCellsLoop page page_type num_cells
                    (headerOffset page_idx + 8) with
                | .error e => .error e
                | .ok cells =>
                  .ok ⟨⟨page_type, first_freeblock_offset, num_cells,
                    cell_content_area, num_frag_free_bytes, none⟩, cells⟩

/-!  ## Helper lemmas  -/

/-- Bitwise-or with a left-shifted value is plain addition when the low bits
are free: `a ||| b <<< n = a + b * 2 ^ n` for `a < 2 ^ n`. -/
theorem lor_shiftLeft_eq_add {a b n : Nat} (h : a < 2 ^ n) :
    a ||| b <<< n = a + b * 2 ^ n := by
  apply Nat.eq_of_testBit_eq
  intro i
  rw [Nat.testBit_lor, Nat.testBit_shiftLeft]
  rcases lt_or_ge i n with hlt | hge
  · have hdec : (decide (i ≥ n) && b.testBit (i - n)) = false := by
      have hni : ¬ (i ≥ n) := by omega
      simp [hni]
    rw [hdec, Bool.or_false, Nat.testBit_to_div_mod, Nat.testBit_to_div_mod]
    congr 2
    have h2 : (2 : Nat) ^ n = 2 ^ (n - i) * 2 ^ i := by
      rw [← pow_add]
      congr 1
      omega
    rw [h2, ← mul_assoc, Nat.add_mul_div_right _ _ (Nat.pos_pow_of_pos i (by norm_num))]
    have h3 : b * 2 ^ (n - i) = b * 2 ^ (n - i - 1) * 2 := by
      rw [mul_assoc]
      congr 1
      rw [show (2 : Nat) ^ (n - i - 1) * 2 = 2 ^ (n - i - 1 + 1) from rfl]
      congr 1
      omega
    rw [h3, Nat.add_mul_mod_self_right]
  · have ha : a.testBit i = false :=
      Nat.testBit_lt_two_pow (lt_of_lt_of_le h (Nat.pow_le_pow_right (by norm_num) hge))
    have hdec : (decide (i ≥ n)) = true := by simp [hge]
    rw [ha, Bool.false_or, hdec, Bool.true_and, Nat.testBit_to_div_mod,
      Nat.testBit_to_div_mod]
    congr 2
    have h2 : (2 : Nat) ^ i = 2 ^ n * 2 ^ (i - n) := by
      rw [← pow_add]
      congr 1
      omega
    rw [h2, ← Nat.div_div_eq_div_mul,
      Nat.add_mul_div_right _ _ (Nat.pos_pow_of_pos n (by norm_num)),
      Nat.div_eq_of_lt h, Nat.zero_add]

set_option maxRecDepth 4000 in
/-- For byte values, `b & 0x7f` is `b % 128`. -/
theorem byte_and_7f : ∀ b, b < 256 → b &&& 127 = b % 128 := by decide

set_option maxRecDepth 4000 in
/-- For byte values, `b & 0x80 == 0` tests `b < 128`. -/
theorem byte_and_80 : ∀ b, b < 256 → (b &&& 128 = 0 ↔ b < 128) := by decide

/-- Exiting the `while header_size > 0` loop. -/
theorem readSerialTypesLoop_zero (payload : List Nat) (pos : Nat) :
    readSerialTypesLoop payload pos 0 = .ok ([], pos) := by
  unfold readSerialTypesLoop
  simp

/-- One successful iteration of the `while header_size > 0` loop. -/
theorem readSerialTypesLoop_step {payload : List Nat} {pos header_size : Nat}
    {s : List Nat} {code nr : Nat} {serial_type : SerialType}
    (h0 : header_size ≠ 0)
    (hsl : sliceFrom payload pos = .ok s)
    (hv : read_varint s = .ok (code, nr))
    (hst : serialTypeOfCode code = .ok serial_type)
    (hlen : pos + nr < payload.length)
    (hle : nr ≤ header_size) :
    readSerialTypesLoop payload pos header_size =
      match readSerialTypesLoop payload (pos + nr) (header_size - nr) with
      | .error e => .error e
      | .ok (rest, pos') => .ok (serial_type :: rest, pos') := by
  rw [readSerialTypesLoop]
  simp only [h0, if_false, hsl]
  split
  · rename_i e heq
    rw [hv] at heq
    exact absurd heq (by simp)
  · rename_i code' nr' heq
    rw [hv] at heq
    injection heq with heq
    obtain ⟨rfl, rfl⟩ : code = code' ∧ nr = nr' :=
      ⟨congrArg Prod.fst heq, congrArg Prod.snd heq⟩
    rw [hst]
    simp [hlen, hle]

/-- An iteration of the `while header_size > 0` loop whose serial-type varint
is longer than the remaining declared header length ends in an `assert!`
panic (either the `pos + nr < payload.len()` assert or the
`header_size >= nr` assert, both of which panic). -/
theorem readSerialTypesLoop_underflow {payload : List Nat}
    {pos header_size code nr : Nat} {serial_type : SerialType}
    (h0 : header_size ≠ 0)
    (hv : read_varint (payload.drop pos) = .ok (code, nr))
    (hst : serialTypeOfCode code = .ok serial_type)
    (hlt : header_size < nr) :
    readSerialTypesLoop payload pos header_size = .error .panicAssert := by
  have hpos : pos ≤ payload.length := by
    by_contra hc
    rw [List.drop_eq_nil_of_le (by omega)] at hv
    exact absurd hv (by simp [read_varint, readVarintAux])
  have hsl : sliceFrom payload pos = .ok (payload.drop pos) := by
    unfold sliceFrom
    rw [if_pos hpos]
  rw [readSerialTypesLoop]
  simp only [h0, if_false, hsl]
  split
  · rename_i e heq
    rw [hv] at heq
    exact absurd heq (by simp)
  · rename_i code' nr' heq
    rw [hv] at heq
    injection heq with heq
    obtain ⟨rfl, rfl⟩ : code = code' ∧ nr = nr' :=
      ⟨congrArg Prod.fst heq, congrArg Prod.snd heq⟩
    rw [hst]
    split_ifs <;> first | rfl | omega

/-- Every successful pass of the `for _ in 0..num_cells` loop yields exactly
one cell per remaining iteration. -/
theorem readCellsLoop_length (page : List Nat) (page_type : PageType) :
    ∀ (n pos : Nat) (cs : List BTreeCell),
      readCellsLoop page page_type n pos = .ok cs → cs.length = n := by
  intro n
  induction n with
  | zero =>
    intro pos cs h
    simp only [readCellsLoop] at h
    injection h with h
    subst h
    rfl
  | succ n ih =>
    intro pos cs h
    cases hu : u16At page pos with
    | error e => simp [readCellsLoop, hu] at h
    | ok cp =>
      cases hc : read_btree_cell page page_type cp with
      | error e => simp [readCellsLoop, hu, hc] at h
      | ok cell =>
        cases cell with
        | TableLeafCell c =>
          cases hr : read_record c.payload with
          | error e => simp [readCellsLoop, hu, hc, hr] at h
          | ok r =>
            cases hrest : readCellsLoop page page_type n (pos + 2) with
            | error e => simp [readCellsLoop, hu, hc, hr, hrest] at h
            | ok rest =>
              simp only [readCellsLoop, hu, hc, hr, hrest] at h
              injection h with h
              subst h
              simp [ih _ _ hrest]

/-- Shape invariant of every successful `read_btree_page`: the right-most
pointer is present exactly on interior pages, and the number of decoded cells
equals the header's cell count. -/
theorem read_btree_page_ok_inv (page : List Nat) (idx : Nat) (bt : BTreePage)
    (h : read_btree_page page idx = .ok bt) :
    (bt.header.right_most_pointer.isSome ↔
      (bt.header.page_type = .IndexInterior ∨ bt.header.page_type = .TableInterior)) ∧
    bt.cells.length = bt.header.num_cells := by
  unfold read_btree_page at h
  cases hb : byteAt page (headerOffset idx) with
  | error e => simp [hb] at h
  | ok b =>
  cases hpt : pageTypeOfByte b with
  | error e => simp [hb, hpt] at h
  | ok page_type =>
  cases hf : u16At page (headerOffset idx + 1) with
  | error e => simp [hb, hpt, hf] at h
  | ok ffo =>
  cases hn : u16At page (headerOffset idx + 3) with
  | error e => simp [hb, hpt, hf, hn] at h
  | ok num_cells =>
  cases hcca : u16At page (headerOffset idx + 5) with
  | error e => simp [hb, hpt, hf, hn, hcca] at h
  | ok cca =>
  cases hnf : byteAt page (headerOffset idx + 7) with
  | error e => simp [hb, hpt, hf, hn, hcca, hnf] at h
  | ok nfb =>
  by_cases hint : page_type = PageType.IndexInterior ∨ page_type = PageType.TableInterior
  · cases hrm : u32At page (headerOffset idx + 8) with
    | error e => simp [hb, hpt, hf, hn, hcca, hnf, hint, hrm] at h
    | ok rmp =>
      cases hcells : readCellsLoop page page_type num_cells (headerOffset idx + 12) with
      | error e => simp [hb, hpt, hf, hn, hcca, hnf, hint, hrm, hcells] at h
      | ok cells =>
        simp only [hb, hpt, hf, hn, hcca, hnf, if_pos hint, hrm, hcells] at h
        injection h with h
        subst h
        exact ⟨by simpa using hint, by simpa using readCellsLoop_length _ _ _ _ _ hcells⟩
  · cases hcells : readCellsLoop page page_type num_cells (headerOffset idx + 8) with
    | error e => simp [hb, hpt, hf, hn, hcca, hnf, hint, hcells] at h
    | ok cells =>
      simp only [hb, hpt, hf, hn, hcca, hnf, if_neg hint, hcells] at h
      injection h with h
      subst h
      exact ⟨by simpa using hint, by simpa using readCellsLoop_length _ _ _ _ _ hcells⟩

/-!  ## Spec-side varint encoder (for the round-trip property)  -/

/-- Modelled from the spec: the varint *encoder* is not part of the
repository (the write path is out of scope), so the round-trip property is
stated against this definition following the spec's words (§4.1/§6/§8):
bytes are emitted low-order-first, each of the first eight bytes carries the
low 7 bits of the remaining value with the high bit set as a continuation
flag, a remaining value below 0x80 terminates the encoding, and a ninth byte
(when reached) contributes all 8 bits with no continuation semantics.
`k` counts the continuation-style bytes still allowed before the forced
ninth byte. -/
def specEncodeVarintFrom : Nat → Nat → List Nat
  | v, 0 => [v % 256]
  | v, k + 1 => if v < 128 then [v] else (128 + v % 128) :: specEncodeVarintFrom (v / 128) k

/-- Modelled from the spec: encode a `u64` value as a varint of at most nine
bytes. -/
def specEncodeVarint (v : Nat) : List Nat := specEncodeVarintFrom v 8

/-- Modelled from the spec: the minimal byte count of a varint for `v`
(1 byte for `v < 0x80`, up to 9 bytes for the full 64-bit range). -/
def specMinVarintLen (v : Nat) : Nat :=
  if v < 2 ^ 7 then 1
  else if v < 2 ^ 14 then 2
  else if v < 2 ^ 21 then 3
  else if v < 2 ^ 28 then 4
  else if v < 2 ^ 35 then 5
  else if v < 2 ^ 42 then 6
  else if v < 2 ^ 49 then 7
  else if v < 2 ^ 56 then 8
  else 9

/-- Running the decoder loop over a spec-encoded value accumulates exactly
that value above the bits already accumulated, consuming the whole
encoding. -/
theorem readVarintAux_spec_encode :
    ∀ (k v acc shift i : Nat), v < 2 ^ (7 * k + 7) → shift + 7 * k ≤ 56 →
      acc < 2 ^ shift →
      readVarintAux (specEncodeVarintFrom v k) acc shift i =
        .ok (acc + v * 2 ^ shift, i + (specEncodeVarintFrom v k).length) := by
  intro k
  induction k with
  | zero =>
    intro v acc shift i hv hsh hacc
    norm_num at hv hsh
    simp only [specEncodeVarintFrom, List.length_cons, List.length_nil]
    rw [Nat.mod_eq_of_lt (show v < 256 by omega)]
    simp only [readVarintAux]
    rw [if_neg (show ¬ 64 ≤ shift by omega)]
    rw [byte_and_7f v (by omega), Nat.mod_eq_of_lt (show v < 128 by omega)]
    have hlt : v <<< shift < 2 ^ 64 :=
      lt_of_lt_of_le (Nat.shiftLeft_lt (show v < 2 ^ 7 by omega))
        (Nat.pow_le_pow_right (by norm_num) (by omega))
    rw [Nat.mod_eq_of_lt hlt, lor_shiftLeft_eq_add hacc]
    rw [if_pos ((byte_and_80 v (by omega)).mpr (by omega))]
  | succ k ih =>
    intro v acc shift i hv hsh hacc
    by_cases hv128 : v < 128
    · simp only [specEncodeVarintFrom, if_pos hv128, List.length_cons, List.length_nil]
      simp only [readVarintAux]
      rw [if_neg (show ¬ 64 ≤ shift by omega)]
      rw [byte_and_7f v (by omega), Nat.mod_eq_of_lt hv128]
      have hlt : v <<< shift < 2 ^ 64 :=
        lt_of_lt_of_le (Nat.shiftLeft_lt (show v < 2 ^ 7 by omega))
          (Nat.pow_le_pow_right (by norm_num) (by omega))
      rw [Nat.mod_eq_of_lt hlt, lor_shiftLeft_eq_add hacc]
      rw [if_pos ((byte_and_80 v (by omega)).mpr hv128)]
    · simp only [specEncodeVarintFrom, if_neg hv128, List.length_cons]
      simp only [readVarintAux]
      rw [if_neg (show ¬ 64 ≤ shift by omega)]
      have hb256 : 128 + v % 128 < 256 := by omega
      rw [byte_and_7f _ hb256]
      rw [show (128 + v % 128) % 128 = v % 128 by omega]
      have hlt : (v % 128) <<< shift < 2 ^ 64 :=
        lt_of_lt_of_le (Nat.shiftLeft_lt (show v % 128 < 2 ^ 7 by omega))
          (Nat.pow_le_pow_right (by norm_num) (by omega))
      rw [Nat.mod_eq_of_lt hlt, lor_shiftLeft_eq_add hacc]
      rw [if_neg (fun hz => absurd ((byte_and_80 _ hb256).mp hz) (by omega))]
      have hdiv : v / 128 < 2 ^ (7 * k + 7) := by
        rw [Nat.div_lt_iff_lt_mul (by norm_num : (0:Nat) < 128)]
        calc v < 2 ^ (7 * (k + 1) + 7) := hv
          _ = 2 ^ (7 * k + 7) * 128 := by
            rw [show 7 * (k + 1) + 7 = (7 * k + 7) + 7 by omega, pow_add]
            norm_num
      have hsh7 : (shift + 7) + 7 * k ≤ 56 := by omega
      have hacc7 : acc + v % 128 * 2 ^ shift < 2 ^ (shift + 7) := by
        have h1 : v % 128 * 2 ^ shift ≤ 127 * 2 ^ shift :=
          Nat.mul_le_mul_right _ (by omega)
        have h2 : (2 : Nat) ^ (shift + 7) = 128 * 2 ^ shift := by
          rw [pow_add]
          ring
        have h3 : (0:Nat) < 2 ^ shift := Nat.pos_pow_of_pos shift (by norm_num)
        linarith
      rw [ih (v / 128) (acc + v % 128 * 2 ^ shift) (shift + 7) (i + 1) hdiv hsh7 hacc7]
      have harith : acc + v % 128 * 2 ^ shift + v / 128 * 2 ^ (shift + 7)
          = acc + v * 2 ^ shift := by
        have hsplit : v % 128 + v / 128 * 128 = v := by omega
        calc acc + v % 128 * 2 ^ shift + v / 128 * 2 ^ (shift + 7)
            = acc + (v % 128 + v / 128 * 128) * 2 ^ shift := by
              rw [pow_add]
              ring
          _ = acc + v * 2 ^ shift := by rw [hsplit]
      rw [harith]
      have hcount : i + 1 + (specEncodeVarintFrom (v / 128) k).length
          = i + ((specEncodeVarintFrom (v / 128) k).length + 1) := by omega
      rw [hcount]

set_option maxHeartbeats 1600000 in
/-- The spec encoder emits exactly the minimal number of bytes. -/
theorem specEncodeVarintFrom_length :
    ∀ (k v : Nat), k ≤ 8 → v < 2 ^ (7 * k + 7) →
      (specEncodeVarintFrom v k).length = specMinVarintLen v := by
  intro k
  induction k with
  | zero =>
    intro v _ hv
    norm_num at hv
    simp only [specEncodeVarintFrom, List.length_cons, List.length_nil, specMinVarintLen]
    rw [if_pos (show v < 2 ^ 7 by omega)]
  | succ k ih =>
    intro v hk hv
    by_cases hv128 : v < 128
    · simp only [specEncodeVarintFrom, if_pos hv128, List.length_cons, List.length_nil,
        specMinVarintLen]
      rw [if_pos (show v < 2 ^ 7 by omega)]
    · simp only [specEncodeVarintFrom, if_neg hv128, List.length_cons]
      have hdiv : v / 128 < 2 ^ (7 * k + 7) := by
        rw [Nat.div_lt_iff_lt_mul (by norm_num : (0:Nat) < 128)]
        calc v < 2 ^ (7 * (k + 1) + 7) := hv
          _ = 2 ^ (7 * k + 7) * 128 := by
            rw [show 7 * (k + 1) + 7 = (7 * k + 7) + 7 by omega, pow_add]
            norm_num
      rw [ih (v / 128) (by omega) hdiv]
      have hvbound : v < 2 ^ 63 := by
        calc v < 2 ^ (7 * (k + 1) + 7) := hv
          _ ≤ 2 ^ 63 := Nat.pow_le_pow_right (by norm_num) (by omega)
      simp only [specMinVarintLen]
      split_ifs <;> omega

/-- Decoding a spec-encoded value below `2 ^ 63` recovers the value and the
minimal byte count. -/
theorem varint_roundtrip_all (v : Nat) (h : v < 2 ^ 63) :
    read_varint (specEncodeVarint v) = .ok (v, specMinVarintLen v) := by
  unfold read_varint specEncodeVarint
  rw [readVarintAux_spec_encode 8 v 0 0 0 (by norm_num at h ⊢; omega) (by norm_num)
    (by norm_num)]
  rw [specEncodeVarintFrom_length 8 v (by norm_num) (by norm_num at h ⊢; omega)]
  norm_num

/-!  ## Claim theorems  -/

/-- C1 counterexample: the claim says every even code ≥ 12 resolves to a Blob
and every odd code ≥ 13 to a String, but the resolver's guards are the strict
`value > 12` and `value > 13`, so codes 12 and 13 (zero-length blob / string
in the real format) are rejected with `InvalidSerialType`. -/
theorem serial_type_code_12_13_rejected :
    serialTypeOfCode 12 = .error (.invalidSerialType 12) ∧
    serialTypeOfCode 13 = .error (.invalidSerialType 13) :=
  ⟨rfl, rfl⟩

/-- C1 (amended): the serial-type resolver maps code 0 to Null, 1–9 to the
fixed-width classes, every even code ≥ 14 to `Blob ((n - 12) / 2)`, every odd
code ≥ 15 to `String ((n - 13) / 2)`, and fails with `InvalidSerialType` for
codes 10, 11, 12 and 13. -/
theorem serial_type_resolution (n : Nat) :
    serialTypeOfCode 0 = .ok .Null ∧
    serialTypeOfCode 1 = .ok .UInt8 ∧
    serialTypeOfCode 2 = .ok .BEInt16 ∧
    serialTypeOfCode 3 = .ok .BEInt24 ∧
    serialTypeOfCode 4 = .ok .BEInt32 ∧
    serialTypeOfCode 5 = .ok .BEInt48 ∧
    serialTypeOfCode 6 = .ok .BEInt64 ∧
    serialTypeOfCode 7 = .ok .BEFloat64 ∧
    serialTypeOfCode 8 = .ok .ConstInt0 ∧
    serialTypeOfCode 9 = .ok .ConstInt1 ∧
    serialTypeOfCode 10 = .error (.invalidSerialType 10) ∧
    serialTypeOfCode 11 = .error (.invalidSerialType 11) ∧
    serialTypeOfCode 12 = .error (.invalidSerialType 12) ∧
    serialTypeOfCode 13 = .error (.invalidSerialType 13) ∧
    (14 ≤ n → n % 2 = 0 → serialTypeOfCode n = .ok (.Blob ((n - 12) / 2))) ∧
    (15 ≤ n → n % 2 = 1 → serialTypeOfCode n = .ok (.String ((n - 13) / 2))) := by
  refine ⟨rfl, rfl, rfl, rfl, rfl, rfl, rfl, rfl, rfl, rfl, rfl, rfl, rfl, rfl, ?_, ?_⟩
  · intro h1 h2
    unfold serialTypeOfCode
    rw [if_neg (show ¬ n = 0 by omega), if_neg (show ¬ n = 1 by omega),
      if_neg (show ¬ n = 2 by omega), if_neg (show ¬ n = 3 by omega),
      if_neg (show ¬ n = 4 by omega), if_neg (show ¬ n = 5 by omega),
      if_neg (show ¬ n = 6 by omega), if_neg (show ¬ n = 7 by omega),
      if_neg (show ¬ n = 8 by omega), if_neg (show ¬ n = 9 by omega),
      if_pos (show 12 < n ∧ n % 2 = 0 by omega)]
  · intro h1 h2
    unfold serialTypeOfCode
    rw [if_neg (show ¬ n = 0 by omega), if_neg (show ¬ n = 1 by omega),
      if_neg (show ¬ n = 2 by omega), if_neg (show ¬ n = 3 by omega),
      if_neg (show ¬ n = 4 by omega), if_neg (show ¬ n = 5 by omega),
      if_neg (show ¬ n = 6 by omega), if_neg (show ¬ n = 7 by omega),
      if_neg (show ¬ n = 8 by omega), if_neg (show ¬ n = 9 by omega),
      if_neg (show ¬ (12 < n ∧ n % 2 = 0) by omega),
      if_pos (show 13 < n ∧ n % 2 = 1 by omega)]

/-- C1 witness: the amended theorem applied at the even code 20 and the odd
code 21. -/
theorem serial_type_resolution_witness :
    serialTypeOfCode 20 = .ok (.Blob 4) ∧ serialTypeOfCode 21 = .ok (.String 4) :=
  ⟨(serial_type_resolution 20).2.2.2.2.2.2.2.2.2.2.2.2.2.2.1 (by norm_num) (by norm_num),
   (serial_type_resolution 21).2.2.2.2.2.2.2.2.2.2.2.2.2.2.2 (by norm_num) (by norm_num)⟩

/-- C2: evaluation at the failing inputs.  `read_value` zero-extends the
1-byte (`buf[0] as i64`), 3-byte and 6-byte (zero-padded high bytes) integer
widths, so an all-0xFF buffer decodes to the unsigned maximum rather than the
sign-extended −1 the claim requires; the 2- and 4-byte widths do sign-extend. -/
theorem read_value_zero_extends_narrow_widths :
    read_value [0xff] .UInt8 = .ok (.Integer 255, 1) ∧
    read_value [0xff, 0xff, 0xff] .BEInt24 = .ok (.Integer 16777215, 3) ∧
    read_value [0xff, 0xff, 0xff, 0xff, 0xff, 0xff] .BEInt48
      = .ok (.Integer 281474976710655, 6) ∧
    read_value [0xff, 0xff] .BEInt16 = .ok (.Integer (-1), 2) ∧
    read_value [0xff, 0xff, 0xff, 0xff] .BEInt32 = .ok (.Integer (-1), 4) :=
  ⟨rfl, rfl, rfl, rfl, rfl⟩

/-- C3: evaluation at the failing inputs.  `read_varint` has no 9-byte cap:
on nine continuation bytes followed by a terminator it consumes 10 bytes, and
on a 1-byte buffer whose sole byte has the continuation bit set it panics
(out-of-bounds index) instead of returning an error. -/
theorem read_varint_unbounded :
    read_varint [0x80, 0x80, 0x80, 0x80, 0x80, 0x80, 0x80, 0x80, 0x80, 0x00]
      = .ok (0, 10) ∧
    read_varint [0x80] = .error .panicIndex :=
  ⟨rfl, rfl⟩

/-- C4: the varint round-trip holds exactly for values below `2 ^ 63`; for
`v = 2 ^ 63` the spec encoding is nine `0x80` bytes, whose ninth byte carries
the continuation bit, so the decoder (which lacks the ninth-byte special
case) runs off the end of the encoding and panics instead of returning
`(2 ^ 63, 9)`. -/
theorem varint_roundtrip :
    (∀ v : Nat, v < 2 ^ 63 →
      read_varint (specEncodeVarint v) = .ok (v, specMinVarintLen v)) ∧
    read_varint (specEncodeVarint (2 ^ 63)) = .error .panicIndex :=
  ⟨fun v h => varint_roundtrip_all v h, rfl⟩

/-- C4 witness: the round-trip part applied at `v = 300` (a two-byte varint). -/
theorem varint_roundtrip_witness :
    read_varint (specEncodeVarint 300) = .ok (300, 2) :=
  varint_roundtrip.1 300 (by norm_num)

/-- C5: evaluation at the failing input.  A table-leaf cell declaring payload
size 5 on a page with no payload bytes left makes `read_btree_cell` panic on
the out-of-range slice `&page[pos..pos + payload_size]` (the source's FIXME),
rather than return an `OutOfBounds` error as the claim requires — indeed the
code constructs no such error value anywhere. -/
theorem read_btree_cell_overlong_payload_panics :
    read_btree_cell [0x05, 0x01] .TableLeaf 0 = .error .panicIndex :=
  rfl

/-- C6 counterexample: on the payload `[0x00]` the declared header length 0 is
smaller than its own varint length 1, and `read_record` fails by an `assert!`
panic — a panic, not a returned error value — refuting the claim that it fails
by returning an error to the caller. -/
theorem read_record_assert_panics :
    read_record [0x00] = .error .panicAssert ∧
    DecodeErr.panicAssert.isPanic = true :=
  ⟨rfl, rfl⟩

/-- C6 (amended): `read_record` fails fast — by an `assert!` panic rather
than by returning an error value, and never by silently truncating or
substituting defaults — whenever the declared record header length is smaller
than the byte length of its own length-varint, or the running
remaining-header-length counter would go negative while reading a (valid)
serial-type varint. -/
theorem read_record_fails_fast :
    (∀ (payload : List Nat) (header_size nr : Nat),
      read_varint payload = .ok (header_size, nr) → header_size < nr →
      read_record payload = .error .panicAssert) ∧
    (∀ (payload : List Nat) (pos header_size code nr : Nat)
      (serial_type : SerialType), header_size ≠ 0 →
      read_varint (payload.drop pos) = .ok (code, nr) →
      serialTypeOfCode code = .ok serial_type →
      header_size < nr →
      readSerialTypesLoop payload pos header_size = .error .panicAssert) := by
  constructor
  · intro payload header_size nr hv hlt
    simp only [read_record, hv]
    rw [if_pos hlt]
  · intro payload pos header_size code nr serial_type h0 hv hst hlt
    exact readSerialTypesLoop_underflow h0 hv hst hlt

/-- C6 witness: both parts of the amended theorem at concrete corrupt
payloads (`[0x00]` for the header-length check; a two-byte serial-type varint
against a remaining header length of 1 for the counter check). -/
theorem read_record_fails_fast_witness :
    read_record [0x00] = .error .panicAssert ∧
    readSerialTypesLoop [0x84, 0x00] 0 1 = .error .panicAssert :=
  ⟨read_record_fails_fast.1 [0x00] 0 1 rfl (by norm_num),
   read_record_fails_fast.2 [0x84, 0x00] 0 1 4 2 .BEInt32 (by norm_num) rfl rfl
     (by norm_num)⟩

/-- C7: the four bytes 2, 5, 10, 13 convert to IndexInterior, TableInterior,
IndexLeaf, TableLeaf respectively, and for every other page-type byte the
conversion — and with it the whole page decode — fails with
`InvalidPageType`. -/
theorem page_type_resolution :
    pageTypeOfByte 2 = .ok .IndexInterior ∧
    pageTypeOfByte 5 = .ok .TableInterior ∧
    pageTypeOfByte 10 = .ok .IndexLeaf ∧
    pageTypeOfByte 13 = .ok .TableLeaf ∧
    (∀ (page : List Nat) (page_idx b : Nat),
      page.get? (headerOffset page_idx) = some b →
      b ≠ 2 → b ≠ 5 → b ≠ 10 → b ≠ 13 →
      pageTypeOfByte b = .error (.invalidPageType b) ∧
      read_btree_page page page_idx = .error (.invalidPageType b)) := by
  refine ⟨rfl, rfl, rfl, rfl, ?_⟩
  intro page page_idx b hget h2 h5 h10 h13
  have hpt : pageTypeOfByte b = .error (.invalidPageType b) := by
    unfold pageTypeOfByte
    rw [if_neg h2, if_neg h5, if_neg h10, if_neg h13]
  have hb : byteAt page (headerOffset page_idx) = .ok b := by
    unfold byteAt
    rw [hget]
  refine ⟨hpt, ?_⟩
  unfold read_btree_page
  simp only [hb, hpt]

/-- C7 witness: the spec's scenario 3 — page-type byte 7 on a non-first page
fails the page decode with `InvalidPageType`. -/
theorem page_type_resolution_witness :
    read_btree_page [7, 0, 0, 0, 0, 0, 0, 0] 2 = .error (.invalidPageType 7) :=
  (page_type_resolution.2.2.2.2 [7, 0, 0, 0, 0, 0, 0, 0] 2 7 rfl
    (by norm_num) (by norm_num) (by norm_num) (by norm_num)).2

/-- C8: every `BTreePage` produced by a successful `read_btree_page` has
`right_most_pointer = none` when its page type is a leaf type and
`right_most_pointer = some _` when it is an interior type. -/
theorem rightmost_pointer_matches_page_kind (page : List Nat) (page_idx : Nat)
    (bt : BTreePage) (h : read_btree_page page page_idx = .ok bt) :
    ((bt.header.page_type = .IndexLeaf ∨ bt.header.page_type = .TableLeaf) →
      bt.header.right_most_pointer = none) ∧
    ((bt.header.page_type = .IndexInterior ∨ bt.header.page_type = .TableInterior) →
      ∃ p, bt.header.right_most_pointer = some p) := by
  have hinv := (read_btree_page_ok_inv page page_idx bt h).1
  constructor
  · intro hleaf
    cases hrm : bt.header.right_most_pointer with
    | none => rfl
    | some p =>
      have hint := hinv.mp (by rw [hrm]; rfl)
      rcases hint with h1 | h1 <;> rcases hleaf with h2 | h2 <;>
        rw [h1] at h2 <;> exact PageType.noConfusion h2
  · intro hint
    cases hrm : bt.header.right_most_pointer with
    | none =>
      have := hinv.mpr hint
      rw [hrm] at this
      simp at this
    | some p => exact ⟨p, rfl⟩

/-- C8 witness: the theorem applied to the decode of a concrete zero-cell
table-leaf page. -/
theorem rightmost_pointer_matches_page_kind_witness :
    (⟨⟨.TableLeaf, 0, 0, 0, 0, none⟩, []⟩ : BTreePage).header.right_most_pointer
      = none :=
  (rightmost_pointer_matches_page_kind [13, 0, 0, 0, 0, 0, 0, 0] 2
    ⟨⟨.TableLeaf, 0, 0, 0, 0, none⟩, []⟩ rfl).1 (Or.inr rfl)

/-- C9: the end-to-end scenario — a table-leaf cell with payload-size varint
`0x05`, rowid varint `0x01`, whose 5-byte payload starts with the record bytes
`[0x02, 0x08]` (header length 2, one serial type `ConstInt0`), decodes via
`read_btree_cell` to rowid 1 with that payload, and the payload decodes via
`read_record` to the single value `Integer 0`, whatever the three padding
bytes are. -/
theorem table_leaf_cell_end_to_end (a b c : Nat) :
    read_btree_cell [0x05, 0x01, 0x02, 0x08, a, b, c] .TableLeaf 0 =
      .ok (.TableLeafCell ⟨1, [0x02, 0x08, a, b, c]⟩) ∧
    read_record [0x02, 0x08, a, b, c] = .ok ⟨[.Integer 0]⟩ := by
  refine ⟨rfl, ?_⟩
  have h1 : read_varint [0x02, 0x08, a, b, c] = .ok (2, 1) := rfl
  have h2 : readSerialTypesLoop [0x02, 0x08, a, b, c] 1 1 = .ok ([.ConstInt0], 2) := by
    rw [@readSerialTypesLoop_step [0x02, 0x08, a, b, c] 1 1 [0x08, a, b, c] 8 1
      SerialType.ConstInt0 (by norm_num) (by simp [sliceFrom]) rfl rfl
      (by simp) (by norm_num)]
    rw [readSerialTypesLoop_zero]
  simp [read_record, h1, h2, readValuesLoop, sliceFrom, read_value]

/-- C9 witness: the scenario with zero padding bytes. -/
theorem table_leaf_cell_end_to_end_witness :
    read_record [0x02, 0x08, 0, 0, 0] = .ok ⟨[.Integer 0]⟩ :=
  (table_leaf_cell_end_to_end 0 0 0).2

/-- C10: whenever `read_btree_page` succeeds, the number of decoded cells
equals the `num_cells` field of the returned header. -/
theorem cells_length_eq_num_cells (page : List Nat) (page_idx : Nat)
    (bt : BTreePage) (h : read_btree_page page page_idx = .ok bt) :
    bt.cells.length = bt.header.num_cells :=
  (read_btree_page_ok_inv page page_idx bt h).2

/-- C10 witness: the theorem applied to the decode of a concrete zero-cell
table-leaf page. -/
theorem cells_length_eq_num_cells_witness :
    (⟨⟨.TableLeaf, 0, 0, 0, 0, none⟩, []⟩ : BTreePage).cells.length =
      (⟨⟨.TableLeaf, 0, 0, 0, 0, none⟩, []⟩ : BTreePage).header.num_cells :=
  cells_length_eq_num_cells [13, 0, 0, 0, 0, 0, 0, 0] 2
    ⟨⟨.TableLeaf, 0, 0, 0, 0, none⟩, []⟩ rfl

end Sqlite3Ondisk





